import Mathlib

/-!
Shallow embedding of the ClickUp webhook server (src/app.py together with the
webhook registration scripts) for checking the specification claims.
JSON / Python values that the claims exercise are modelled by the inductive
`Value`; wall-clock time and sleep durations are modelled by exact rationals
(the CPython float arithmetic is idealized to exact real arithmetic).
All definitions are translated from src/app.py; line numbers in the doc
comments refer to that file.
-/

namespace CWS

/-- PROCESS_COOLDOWN = 3 seconds (app.py line 23). -/
def PROCESS_COOLDOWN : ℚ := 3

/-- API_RATE_LIMIT = 100 (app.py line 27). -/
def API_RATE_LIMIT : Nat := 100

/-- API_WINDOW_SECONDS = 60 (app.py line 28). -/
def API_WINDOW_SECONDS : ℚ := 60

/-- API_THROTTLE_SAFE = 90 (app.py line 29). -/
def API_THROTTLE_SAFE : Nat := 90

/-- TASK_QUEUE_MAX = 2000 (app.py line 362). -/
def TASK_QUEUE_MAX : Nat := 2000

/-- CUSTOMER_LIST_ID (app.py line 32). -/
def CUSTOMER_LIST_ID : String := "901811834458"

/-- ORDER_RECORD_LIST_ID (app.py line 33). -/
def ORDER_RECORD_LIST_ID : String := "901812062655"

/-- One element of a relationship-field value: either a bare task id string or
a dict, of which the code only ever reads the key "id" (app.py 220-224,
323-331). -/
inductive RelItem where
  | rid (s : String)
  | robj (oid : Option String)
deriving DecidableEq

/-- Scalar-ish Python/JSON values as they occur in custom-field values and
webhook payload entries. vnull models both JSON null and an absent dict key
(dict.get returns None for both). -/
inductive Value where
  | vnull
  | vbool (b : Bool)
  | vint (n : Int)
  | vstr (s : String)
  | vrel (items : List RelItem)
deriving DecidableEq

/-- Python truthiness of a Value: None, False, 0, the empty string and the
empty list are falsy, everything else truthy. -/
def truthy : Value → Bool
  | .vnull => false
  | .vbool b => b
  | .vint n => n != 0
  | .vstr s => s != ""
  | .vrel items => !items.isEmpty

/-- Python truthiness of an Option String (None and the empty string are
falsy). -/
def optTruthy : Option String → Bool
  | none => false
  | some s => s != ""

/-- Python str() of a Value. The exact repr of list values is not needed by
any claim (date and event fields are scalars); it is only relevant that the
str() of a list is never the empty string, which holds of the model as well. -/
def pyStr : Value → String
  | .vnull => "None"
  | .vbool true => "True"
  | .vbool false => "False"
  | .vint n => toString n
  | .vstr s => s
  | .vrel _ => "[...]"

/-- Digit-run parser for Python int(str): digits with single underscores
allowed between digits (accumulator form). -/
def parsePyDigits : List Char → Nat → Option Nat
  | [], acc => some acc
  | c :: rest, acc =>
    if c.isDigit then parsePyDigits rest (acc * 10 + (c.toNat - 48))
    else if c = '_' then
      match rest with
      | d :: rest2 =>
        if d.isDigit then parsePyDigits rest2 (acc * 10 + (d.toNat - 48)) else none
      | [] => none
    else none

/-- Nonempty digit run: the first character must be a digit. -/
def parsePyNat : List Char → Option Nat
  | [] => none
  | c :: rest => if c.isDigit then parsePyDigits rest (c.toNat - 48) else none

/-- Whitespace removal from both ends of a character list. -/
def stripChars (l : List Char) : List Char :=
  ((l.dropWhile Char.isWhitespace).reverse.dropWhile Char.isWhitespace).reverse

/-- Python str.strip() with no argument: removes surrounding whitespace. -/
def pyStrip (s : String) : String :=
  ⟨stripChars s.data⟩

/-- Python str.lower(). Only ASCII letters are mapped (the field and event
strings the claims exercise are ASCII apart from emoji, which lower() leaves
unchanged). -/
def pyLower (s : String) : String :=
  ⟨s.data.map Char.toLower⟩

/-- Python int(s) on a string: surrounding whitespace is stripped, then an
optional sign followed by digits (underscores between digits allowed).
Unicode digits are not modelled. Returns none when int() would raise. -/
def pyIntOfStr (s : String) : Option Int :=
  match (pyStrip s).toList with
  | '+' :: rest => (parsePyNat rest).map Int.ofNat
  | '-' :: rest => (parsePyNat rest).map (fun n => -(n : Int))
  | t => (parsePyNat t).map Int.ofNat

/-- Python int() applied to a Value: ints pass through, bools become 0/1,
strings are parsed, everything else raises (modelled as none). -/
def pyInt : Value → Option Int
  | .vint n => some n
  | .vbool b => some (if b then 1 else 0)
  | .vstr s => pyIntOfStr s
  | .vnull => none
  | .vrel _ => none

/-- Smallest epoch-millisecond instant representable as a Python datetime
(0001-01-01T00:00:00 UTC). datetime.fromtimestamp raises below this. -/
def DT_MIN_MS : Int := -62135596800000

/-- Largest epoch-millisecond instant representable as a Python datetime
(9999-12-31T23:59:59.999 UTC and a fraction). fromtimestamp raises above. -/
def DT_MAX_MS : Int := 253402300799999

/-- parse_date (app.py 87-92): try datetime.fromtimestamp(int(x)/1000, utc),
return None on any exception. A timezone-aware UTC datetime is represented
here by its exact epoch-millisecond instant; fromtimestamp succeeds exactly
when the instant falls in the year range 1..9999. -/
def parse_date (v : Value) : Option Int :=
  match pyInt v with
  | none => none
  | some t => if DT_MIN_MS ≤ t ∧ t ≤ DT_MAX_MS then some t else none

/-- Python floor division of rationals (the // operator on floats). -/
def pyFloorDiv (a b : ℚ) : Int := ⌊a / b⌋

/-- Python modulo of rationals (the % operator on floats):
a % b = a - b * (a // b). -/
def pyFMod (a b : ℚ) : ℚ := a - b * (⌊a / b⌋ : ℚ)

/-- format_diff (app.py 94-98). diff_seconds is an exact rational; the int()
truncations in the source act on already-floored values and are identities. -/
def format_diff (diffSeconds : ℚ) : String :=
  let days : Int := pyFloorDiv diffSeconds 86400
  let hours : Int := pyFloorDiv (pyFMod diffSeconds 86400) 3600
  let minutes : Int := pyFloorDiv (pyFMod diffSeconds 3600) 60
  toString days ++ "d " ++ toString hours ++ "h " ++ toString minutes ++ "m"

/-- One entry of a task JSON custom_fields array: name (f.get("name", "")),
id (f.get("id")) and value (f.get("value"), vnull when absent or null). -/
structure Field where
  name : String
  id : Option String
  value : Value
deriving DecidableEq

/-- The parts of a fetched task JSON that app.py reads: task.get("id"),
task.get("list", {}).get("id"), task.get("custom_fields", []). -/
structure Task where
  id : Value
  listId : Option String
  custom_fields : List Field
deriving DecidableEq

/-- Lookup in the field_map dict built at app.py 128-133: iterating over the
fields and assigning field_map[name] makes the LAST field with a given name
win. -/
def fieldMapLookup (fields : List Field) (name : String) : Option Field :=
  fields.foldl (fun acc f => if f.name = name then some f else acc) none

/-- field_map.get(name, {}).get("value") (app.py 136-139). -/
def fmValue (fields : List Field) (name : String) : Value :=
  match fieldMapLookup fields name with
  | some f => f.value
  | none => .vnull

/-- field_map.get(name, {}).get("id") (app.py 148-150). -/
def fmId (fields : List Field) (name : String) : Option String :=
  match fieldMapLookup fields name with
  | some f => f.id
  | none => none

/-- get_field_value in the worker (app.py 394-398): returns the value of the
FIRST field whose name matches, None when no field matches. -/
def get_field_value (fields : List Field) (name : String) : Value :=
  match fields.find? (fun f => f.name = name) with
  | some f => f.value
  | none => .vnull

/-- One slot of a date signature: str(x) if x else None (app.py 194-199 and
405-408). -/
def sigEntry (v : Value) : Option String :=
  if truthy v then some (pyStr v) else none

/-- A 4-tuple date signature, one slot per T1..T4 date field. -/
structure Sig4 where
  s1 : Option String
  s2 : Option String
  s3 : Option String
  s4 : Option String
deriving DecidableEq

/-- The one interval string computation of calculate_all_intervals
(app.py 154-161 and the two analogous blocks): when both parsed dates are
present, the difference in seconds is formatted when non-negative and the
empty string is produced when negative; when either date is missing the
empty string is produced. -/
def intervalText (a b : Option Int) : String :=
  match a, b with
  | some x, some y =>
    let diffSeconds : ℚ := ((y - x : Int) : ℚ) / 1000
    if 0 ≤ diffSeconds then format_diff diffSeconds else ""
  | _, _ => ""

/-- The write issued for one interval field (app.py 163-164 etc.): the field
is written only when its id is truthy. -/
def writeFor (fid : Option String) (text : String) : List (String × String) :=
  match fid with
  | some f => if f = "" then [] else [(f, text)]
  | none => []

/-- calculate_all_intervals (app.py 112-202), as the pair of (a) the list of
(field id, value) writes issued through update_interval_field_by_id and
(b) the last_date_signature update performed at the end (keyed by
task.get("id")); returns no writes and no signature update when the task id
is falsy (early return at line 122-123). -/
def calculate_all_intervals (task : Task) : List (String × String) × Option (Value × Sig4) :=
  if truthy task.id then
    let fields := task.custom_fields
    let t1 := fmValue fields "📅 T1 Date"
    let t2 := fmValue fields "📅 T2 Date"
    let t3 := fmValue fields "📅 T3 Date"
    let t4 := fmValue fields "📅 T4 Date"
    let d1 := if truthy t1 then parse_date t1 else none
    let d2 := if truthy t2 then parse_date t2 else none
    let d3 := if truthy t3 then parse_date t3 else none
    let d4 := if truthy t4 then parse_date t4 else none
    let w12 := writeFor (fmId fields "Interval 1-2") (intervalText d1 d2)
    let w23 := writeFor (fmId fields "Interval 2-3") (intervalText d2 d3)
    let w34 := writeFor (fmId fields "Interval 3-4") (intervalText d3 d4)
    (w12 ++ w23 ++ w34, some (task.id, ⟨sigEntry t1, sigEntry t2, sigEntry t3, sigEntry t4⟩))
  else ([], none)

/-- The interval string exactly as claim C1 words it: for millisecond dates
msA and msB, the difference in seconds with days = diff // 86400,
hours = (diff % 86400) // 3600, minutes = (diff % 3600) // 60. -/
def specIntervalString (msA msB : Int) : String :=
  let diff : ℚ := ((msB - msA : Int) : ℚ) / 1000
  let days : Int := pyFloorDiv diff 86400
  let hours : Int := pyFloorDiv (pyFMod diff 86400) 3600
  let minutes : Int := pyFloorDiv (pyFMod diff 3600) 60
  toString days ++ "d " ++ toString hours ++ "h " ++ toString minutes ++ "m"

/-- The per-pair interval value claim C1 predicts from the two date field
values: the formatted difference when both dates are present with a
non-negative difference, the empty string otherwise. -/
def specInterval : Value → Value → String
  | .vint n1, .vint n2 => if n1 ≤ n2 then specIntervalString n1 n2 else ""
  | _, _ => ""

/-- A date field value the claims range over: either unset (null) or a truthy
millisecond timestamp within the representable datetime range. -/
def dateOk (v : Value) : Prop :=
  v = .vnull ∨ ∃ n : Int, v = .vint n ∧ n ≠ 0 ∧ DT_MIN_MS ≤ n ∧ n ≤ DT_MAX_MS

/-- A value of a top-level webhook payload key: either a scalar-ish value or
a one-level JSON object (as the "task" key carries). -/
inductive PVal where
  | ps (v : Value)
  | pobj (entries : List (String × Value))
deriving DecidableEq

/-- A webhook JSON payload: a dict from strings to payload values. -/
abbrev Payload := List (String × PVal)

/-- Python truthiness of a payload value (an empty dict is falsy). -/
def pvTruthy : PVal → Bool
  | .ps v => truthy v
  | .pobj entries => !entries.isEmpty

/-- Python str() of a payload value. For dicts, quoting is elided; it is only
the contained key and scalar text that any claim inspects. -/
def pvStr : PVal → String
  | .ps v => pyStr v
  | .pobj entries =>
    "\x7b" ++ String.intercalate ", " (entries.map (fun kv => kv.1 ++ ": " ++ pyStr kv.2)) ++ "\x7d"

/-- Lookup in an inner JSON object, dict semantics (last duplicate key wins,
absent key gives None). -/
def vget (entries : List (String × Value)) (k : String) : Value :=
  entries.foldl (fun acc kv => if kv.1 = k then kv.2 else acc) .vnull

/-- data.get(k) on a webhook payload (None when the key is absent). -/
def pget (d : Payload) (k : String) : PVal :=
  d.foldl (fun acc kv => if kv.1 = k then kv.2 else acc) (.ps .vnull)

/-- Whether the key k is present in the payload (the Python `k in data`
test, which is satisfied even when the stored value is None). -/
def pHasKey (d : Payload) (k : String) : Bool :=
  d.any (fun kv => kv.1 = k)

/-- task_id extraction (app.py 492): data.get("task_id") or
(data.get("task") and data.get("task").get("id")). Returns none when the
expression raises, which happens exactly when "task_id" is falsy and "task"
holds a truthy non-dict (calling .get on it raises AttributeError). -/
def extractTid (d : Payload) : Option PVal :=
  let a := pget d "task_id"
  if pvTruthy a then some a
  else
    let t := pget d "task"
    if pvTruthy t then
      match t with
      | .pobj entries => some (.ps (vget entries "id"))
      | .ps _ => none
    else some t

/-- The responses the /clickup-webhook handler can produce. serverError
stands for an uncaught exception turned into a Flask 500. -/
inductive WResp where
  | noTaskId
  | ignoredDup
  | queueFull
  | accepted
  | serverError
deriving DecidableEq

/-- HTTP status code of each handler response (app.py 495, 503, 516, 519). -/
def respStatus : WResp → Nat
  | .noTaskId => 400
  | .ignoredDup => 200
  | .queueFull => 200
  | .accepted => 200
  | .serverError => 500

/-- The single key/value pair each jsonify body carries (none for the Flask
internal-error page). -/
def respBody : WResp → Option (String × String)
  | .noTaskId => some ("error", "no task_id")
  | .ignoredDup => some ("ignored", "duplicate")
  | .queueFull => some ("error", "queue_full")
  | .accepted => some ("accepted", "true")
  | .serverError => none

/-- Association-list lookup (first match wins; updates are prepended). -/
def alookup {α β : Type} [DecidableEq α] (m : List (α × β)) (k : α) : Option β :=
  match m.find? (fun kv => kv.1 = k) with
  | some kv => some kv.2
  | none => none

/-- Association-list update, shadowing any earlier entry for the key.
Models assignment into a Python dict. -/
def aupdate {α β : Type} [DecidableEq α] (m : List (α × β)) (k : α) (v : β) : List (α × β) :=
  (k, v) :: m

/-- Task-id values that Python cannot use as dict keys: lists and dicts are
unhashable, so `task_id in processed_tasks` raises on them. -/
def isUnhashable : Value → Bool
  | .vrel _ => true
  | _ => false

/-- The whole in-memory server state: processed_tasks (line 20),
last_date_signature (line 21), the bounded task queue (line 363) and
api_call_timestamps (line 26). -/
structure ServerState where
  processed : List (Value × ℚ)
  lastSig : List (Value × Sig4)
  queued : List (Value × Payload)
  apiTimestamps : List ℚ
deriving DecidableEq

/-- The state all four containers hold at module load: empty. -/
def initServerState : ServerState :=
  { processed := [], lastSig := [], queued := [], apiTimestamps := [] }

/-- A process restart discards the whole in-memory state and re-runs module
initialization. -/
def restart : ServerState → ServerState := fun _ => initServerState

/-- The /clickup-webhook handler (app.py 486-522) as a state transformer:
extract the task id (400 when falsy), drop duplicates inside the cooldown
window (200 ignored), enqueue when there is room (200 accepted, recording
the cooldown timestamp), and answer 200 queue_full when the queue is full,
leaving the state untouched. Unhashable (list/dict) truthy task ids raise at
the `task_id in processed_tasks` test, giving a Flask 500. -/
def clickup_webhook (st : ServerState) (d : Payload) (now : ℚ) : ServerState × WResp :=
  match extractTid d with
  | none => (st, .serverError)
  | some tid =>
    if pvTruthy tid then
      match tid with
      | .pobj _ => (st, .serverError)
      | .ps v =>
        if isUnhashable v then (st, .serverError)
        else
          let dup : Bool :=
            match alookup st.processed v with
            | some last => decide (now - last < PROCESS_COOLDOWN)
            | none => false
          if dup then (st, .ignoredDup)
          else if TASK_QUEUE_MAX ≤ st.queued.length then (st, .queueFull)
          else
            ({ st with
                queued := st.queued ++ [(v, d)]
                processed := aupdate st.processed v now }, .accepted)
    else (st, .noTaskId)

/-- Whether a list of characters occurs contiguously inside another
(the Python `in` test on strings). -/
def containsSub : List Char → List Char → Bool
  | pat, [] => pat.isEmpty
  | pat, c :: rest => pat.isPrefixOf (c :: rest) || containsSub pat rest

/-- Python substring test: pat in hay. -/
def strContains (hay pat : String) : Bool :=
  containsSub pat.toList hay.toList

/-- The event keys probed in order at app.py 441. -/
def EVENT_KEYS : List String := ["event", "event_type", "hook_event", "webhook_event", "action"]

/-- The loop of app.py 441-444: the value under the first of the keys that is
present in the payload (breaking there), none when no key is present. -/
def firstEventAux (d : Payload) : List String → Option PVal
  | [] => none
  | k :: ks => if pHasKey d k then some (pget d k) else firstEventAux d ks

/-- The event value the worker extracts from the payload. -/
def firstEvent (d : Payload) : Option PVal :=
  firstEventAux d EVENT_KEYS

/-- evt_str at app.py 445: str(event).lower() if event else "". -/
def eventStr (d : Payload) : String :=
  match firstEvent d with
  | some pv => if pvTruthy pv then pyLower (pvStr pv) else ""
  | none => ""

/-- The creation test at app.py 446: "create" in evt_str or "taskcreated" in
evt_str. -/
def isCreateEvent (d : Payload) : Bool :=
  strContains (eventStr d) "create" || strContains (eventStr d) "taskcreated"

/-- The worker cur_sig (app.py 400-408): first-match field values of the four
date fields, each rendered str(x) if x else None. -/
def sigOfFields (fields : List Field) : Sig4 :=
  { s1 := sigEntry (get_field_value fields "📅 T1 Date")
    s2 := sigEntry (get_field_value fields "📅 T2 Date")
    s3 := sigEntry (get_field_value fields "📅 T3 Date")
    s4 := sigEntry (get_field_value fields "📅 T4 Date") }

/-- newly_assigned (app.py 412-419): with no previous signature, any set slot
counts; otherwise some slot must have gone from None to set. -/
def newlyAssigned (prev : Option Sig4) (cur : Sig4) : Bool :=
  match prev with
  | none => cur.s1.isSome || cur.s2.isSome || cur.s3.isSome || cur.s4.isSome
  | some p =>
    (p.s1.isNone && cur.s1.isSome) || (p.s2.isNone && cur.s2.isSome) ||
    (p.s3.isNone && cur.s3.isSome) || (p.s4.isNone && cur.s4.isSome)

/-- pair_exists (app.py 421-427): some consecutive pair of signature slots is
truthy (note: truthiness of the Optional strings, not isSome). -/
def pairExists (cur : Sig4) : Bool :=
  (optTruthy cur.s1 && optTruthy cur.s2) ||
  (optTruthy cur.s2 && optTruthy cur.s3) ||
  (optTruthy cur.s3 && optTruthy cur.s4)

/-- The worker cooldown gate (app.py 373-377): the body runs unless the task
was processed less than PROCESS_COOLDOWN seconds ago. -/
def cooldownPass (p : List (Value × ℚ)) (tid : Value) (now : ℚ) : Bool :=
  match alookup p tid with
  | some prev => decide (PROCESS_COOLDOWN ≤ now - prev)
  | none => true

/-- What one worker invocation did: the two maps after it, whether the body
ran (the cooldown gate passed), the interval writes issued, whether
calculate_all_intervals ran and whether handle_order_client_linking was
invoked. -/
structure ProcOut where
  processed : List (Value × ℚ)
  lastSig : List (Value × Sig4)
  ran : Bool
  calcWrites : List (String × String)
  calcCalled : Bool
  linkingInvoked : Bool
deriving DecidableEq

/-- The part of the worker body after the cooldown gate and the processed
map update (app.py 381-453): dispatch on the fetched list id; returns the
new last_date_signature map, the interval writes, whether
calculate_all_intervals ran and whether handle_order_client_linking was
invoked. -/
def processBody (s : List (Value × Sig4)) (tid : Value) (data : Payload)
    (fetch : Option Task) : List (Value × Sig4) × List (String × String) × Bool × Bool :=
  match fetch with
  | none => (s, [], false, false)
  | some task =>
    if task.listId = some CUSTOMER_LIST_ID then
      let fields := task.custom_fields
      let curSig := sigOfFields fields
      let prevSig := alookup s tid
      if newlyAssigned prevSig curSig && pairExists curSig then
        let res := calculate_all_intervals task
        let s1 :=
          match res.2 with
          | some ks => aupdate s ks.1 ks.2
          | none => s
        (s1, res.1, true, false)
      else (aupdate s tid curSig, [], false, false)
    else if task.listId = some ORDER_RECORD_LIST_ID then
      (s, [], false, isCreateEvent data)
    else (s, [], false, false)

/-- process_task_from_queue (app.py 366-457). The fetch of the task JSON is
an input (none models a non-200 response). The network effects of
handle_order_client_linking are modelled separately; here only its
invocation is recorded, as claim C9 requires. -/
def process_task_from_queue (p : List (Value × ℚ)) (s : List (Value × Sig4))
    (tid : Value) (data : Payload) (now : ℚ) (fetch : Option Task) : ProcOut :=
  if cooldownPass p tid now then
    let body := processBody s tid data fetch
    ⟨aupdate p tid now, body.1, true, body.2.1, body.2.2.1, body.2.2.2⟩
  else ⟨p, s, false, [], false, false⟩

/-- A serialized event of the running system: a webhook POST arriving, or the
single worker thread dequeuing the next item (with the outcome of its task
fetch as an oracle). -/
inductive Ev where
  | hook (data : Payload) (t : ℚ)
  | work (t : ℚ) (fetch : Option Task)

/-- One event step: hooks run the handler; a work event pops the queue head
(blocking, i.e. a no-op, on an empty queue) and runs the worker body,
emitting a processing record (task id, time) when the cooldown gate passed. -/
def stepEv (st : ServerState) : Ev → ServerState × List (Value × ℚ)
  | .hook d t => ((clickup_webhook st d t).1, [])
  | .work t fetch =>
    match st.queued with
    | [] => (st, [])
    | (tid, d) :: rest =>
      let out := process_task_from_queue st.processed st.lastSig tid d t fetch
      ({ st with processed := out.processed, lastSig := out.lastSig, queued := rest },
       if out.ran then [(tid, t)] else [])

/-- Run a list of events from a state, collecting all processing records in
order. -/
def runTrace (st : ServerState) : List Ev → ServerState × List (Value × ℚ)
  | [] => (st, [])
  | e :: es =>
    let r1 := stepEv st e
    let r2 := runTrace r1.1 es
    (r2.1, r1.2 ++ r2.2)

/-- ensure_rate_limit (app.py 39-59) as a pure function of the timestamp
deque and the current time, returning the deque after the popleft loop and
the number of seconds slept (0 when no sleep happens). -/
def ensure_rate_limit (dq : List ℚ) (cur : ℚ) : List ℚ × ℚ :=
  let dq1 := dq.dropWhile (fun ts => decide (ts < cur - API_WINDOW_SECONDS))
  let used := dq1.length
  if API_RATE_LIMIT ≤ used then
    (dq1, API_WINDOW_SECONDS - (cur - dq1.headD 0) + 1 / 10)
  else if API_THROTTLE_SAFE ≤ used then (dq1, 1)
  else (dq1, 0)

/-- record_api_call (app.py 61-62): append the completion time to the deque. -/
def record_api_call (dq : List ℚ) (now : ℚ) : List ℚ :=
  dq ++ [now]

/-- clickup_get (app.py 65-73): run the rate limiter at call time cur, then
perform the request; when it completes without raising (ok) the completion
time fin is recorded. Returns the final deque and the sleep performed. -/
def clickup_get (dq : List ℚ) (cur fin : ℚ) (ok : Bool) : List ℚ × ℚ :=
  let r := ensure_rate_limit dq cur
  (if ok then record_api_call r.1 fin else r.1, r.2)

/-- clickup_post (app.py 75-85): identical rate-limit behavior to
clickup_get. -/
def clickup_post (dq : List ℚ) (cur fin : ℚ) (ok : Bool) : List ℚ × ℚ :=
  let r := ensure_rate_limit dq cur
  (if ok then record_api_call r.1 fin else r.1, r.2)

/-- A task of the Customer list as the search at app.py 281-287 sees it:
customer_task.get("id") and customer_task.get("name", ""). -/
structure CTask where
  id : Option String
  name : String
deriving DecidableEq

/-- The relationship write of app.py 305-312: POST to the client field with
value add = [matched customer id], rem = []. -/
structure LinkWrite where
  fieldId : String
  add : List (Option String)
  rem : List (Option String)
deriving DecidableEq

/-- The exact-match test of app.py 292-293:
customer.name.strip().lower() == client_name.strip().lower(). -/
def clientNameMatches (clientName : String) (ct : CTask) : Bool :=
  pyLower (pyStrip ct.name) = pyLower (pyStrip clientName)

/-- The first-element comparison of app.py 323-331: a dict element is
compared through its "id" key (where None == None holds), a bare element is
compared directly to the matched id (a string is never equal to None). -/
def relEq : RelItem → Option String → Bool
  | .rid s, some c => s = c
  | .rid _, none => false
  | .robj o, c => o = c

/-- The last field with the given name, as the reassigning loop of
app.py 258-269 leaves it. -/
def lastFieldNamed (fields : List Field) (name : String) : Option Field :=
  fields.foldl (fun acc f => if f.name = name then some f else acc) none

/-- already_linked (app.py 314-331): the first field whose id equals the
client field id is inspected; when its value is a nonempty list whose first
element matches the client task id, the write is skipped. -/
def alreadyLinkedIn (fields : List Field) (clientFieldId : Option String)
    (clientTaskId : Option String) : Bool :=
  match fields.find? (fun f => f.id = clientFieldId) with
  | some f =>
    match f.value with
    | .vrel (first :: _) => relEq first clientTaskId
    | _ => false
  | none => false

/-- handle_order_client_linking (app.py 241-359), with the two fetches it
performs given as inputs: the custom fields of the (re)fetched order task and
the non-archived Customer-list tasks. Returns the relationship write it
POSTs, or none when no write is issued (missing name or field, no match, or
already linked). A truthy non-string client name makes the source raise at
.strip(), which likewise issues no write and is mapped to none. -/
def handle_order_client_linking (orderFields : List Field) (customers : List CTask) :
    Option LinkWrite :=
  let clientNameV :=
    match lastFieldNamed orderFields "👤 Client Name" with
    | some f => f.value
    | none => .vnull
  let clientFieldId :=
    match lastFieldNamed orderFields "👤 Client" with
    | some f => f.id
    | none => none
  if truthy clientNameV then
    if optTruthy clientFieldId then
      match clientNameV with
      | .vstr cname =>
        match customers.find? (clientNameMatches cname) with
        | some m =>
          if alreadyLinkedIn orderFields clientFieldId m.id then none
          else
            match clientFieldId with
            | some fid => some ⟨fid, [m.id], []⟩
            | none => none
        | none => none
      | _ => none
    else none
  else none

/-! Helper lemmas shared by several claims. -/

/-- Lookup after an update at the same key gives the new value. -/
theorem alookup_aupdate_self {α β : Type} [DecidableEq α] (m : List (α × β)) (k : α) (v : β) :
    alookup (aupdate m k v) k = some v := by
  simp [alookup, aupdate, List.find?]

/-- Lookup after an update at a different key is unchanged. -/
theorem alookup_aupdate_ne {α β : Type} [DecidableEq α] (m : List (α × β)) (k k1 : α) (v : β)
    (h : k1 ≠ k) : alookup (aupdate m k v) k1 = alookup m k1 := by
  simp [alookup, aupdate, List.find?, h.symm]

/-! Claim C6: parse_date semantics. -/

/-- C6 amended: for every input on which Python int() succeeds with value t,
parse_date returns the UTC datetime at t/1000 seconds after the epoch
provided that instant is representable as a datetime (years 1 to 9999), and
returns None when it is out of range; for every input on which int() raises,
parse_date returns None. -/
theorem c6_parse_date_amended (v : Value) :
    (pyInt v = none → parse_date v = none) ∧
    (∀ t : Int, pyInt v = some t →
      ((DT_MIN_MS ≤ t ∧ t ≤ DT_MAX_MS) → parse_date v = some t) ∧
      (¬(DT_MIN_MS ≤ t ∧ t ≤ DT_MAX_MS) → parse_date v = none)) := by
  refine ⟨fun h => by simp [parse_date, h], fun t ht => ⟨fun h => ?_, fun h => ?_⟩⟩
  · simp [parse_date, ht, h.1, h.2]
  · simp only [parse_date, ht, if_neg h]

/-- C6 counterexample: the integer 400000000000000000 is convertible (int()
succeeds on it), yet parse_date returns None instead of a datetime, because
the instant lies beyond year 9999; the claim as stated promises a datetime
for every convertible input. -/
theorem c6_counterexample :
    pyInt (Value.vint 400000000000000000) = some 400000000000000000 ∧
    parse_date (Value.vint 400000000000000000) = none := by
  constructor
  · rfl
  · decide

/-- C6 witness: a realistic millisecond-epoch string is converted to the
instant at t/1000 seconds after the epoch. -/
theorem c6_witness :
    parse_date (Value.vstr "1700000000000") = some 1700000000000 :=
  ((c6_parse_date_amended (Value.vstr "1700000000000")).2 1700000000000 (by decide)).1
    (by decide)

/-! Claim C7: no durable state. -/

/-- C7: the complete mutable state of the process consists of the
processed_tasks and last_date_signature maps, the task queue and the
api_call_timestamps deque; each is empty at module load, and a restart
discards any state and rebuilds exactly the module-load state. In this
embedding every operation is a pure function of this state, so nothing is
ever written to a durable store by construction. -/
theorem c7_no_durable_state :
    initServerState.processed = [] ∧
    initServerState.lastSig = [] ∧
    initServerState.queued = [] ∧
    initServerState.apiTimestamps = [] ∧
    ∀ st : ServerState, restart st = initServerState :=
  ⟨rfl, rfl, rfl, rfl, fun _ => rfl⟩

/-! Claim C8: missing task id. -/

/-- C8 amended: for every webhook POST whose task-id extraction runs without
raising and yields a falsy value (no truthy "task_id" key and no truthy
nested task.id), the endpoint returns 400 with body error: no task_id and
the server state is unchanged; when the "task" key holds a truthy non-dict
the extraction raises instead and Flask answers 500. -/
theorem c8_no_task_id_amended (st : ServerState) (d : Payload) (now : ℚ) (tid : PVal)
    (hx : extractTid d = some tid) (ht : pvTruthy tid = false) :
    clickup_webhook st d now = (st, .noTaskId) ∧
    respStatus .noTaskId = 400 ∧
    respBody .noTaskId = some ("error", "no task_id") := by
  refine ⟨?_, rfl, rfl⟩
  simp only [clickup_webhook, hx, ht, Bool.false_eq_true, if_false]

/-- C8 counterexample: the payload with "task" bound to the string "oops"
yields no truthy task id from either path, yet the handler raises
(AttributeError on .get) and Flask answers 500, not the claimed 400. -/
theorem c8_counterexample :
    pvTruthy (pget [("task", PVal.ps (Value.vstr "oops"))] "task_id") = false ∧
    clickup_webhook initServerState [("task", PVal.ps (Value.vstr "oops"))] 0
      = (initServerState, .serverError) ∧
    respStatus .serverError = 500 := by
  refine ⟨rfl, ?_, rfl⟩
  simp only [clickup_webhook, extractTid]
  decide

/-- C8 witness: the empty payload is answered with 400 and no state change. -/
theorem c8_witness :
    clickup_webhook initServerState [] 0 = (initServerState, .noTaskId) :=
  (c8_no_task_id_amended initServerState [] 0 (.ps .vnull) rfl rfl).1

/-! Claim C4: bounded queue, queue-full response. -/

set_option maxRecDepth 8192

/-- C4: the queue bound is 2000, and a webhook POST carrying a truthy
hashable task id that is not inside the cooldown window, arriving while the
queue holds TASK_QUEUE_MAX entries, is dropped: the handler answers HTTP 200
with body error: queue_full and the whole state, in particular
processed_tasks, is unchanged (the cooldown timestamp is recorded only on a
successful enqueue). -/
theorem c4_queue_full (st : ServerState) (d : Payload) (now : ℚ) (v : Value)
    (hx : extractTid d = some (.ps v)) (hv : truthy v = true)
    (hh : isUnhashable v = false)
    (hcool : ∀ last, alookup st.processed v = some last → PROCESS_COOLDOWN ≤ now - last)
    (hfull : st.queued.length = TASK_QUEUE_MAX) :
    TASK_QUEUE_MAX = 2000 ∧
    clickup_webhook st d now = (st, .queueFull) ∧
    respStatus .queueFull = 200 ∧
    respBody .queueFull = some ("error", "queue_full") := by
  refine ⟨rfl, ?_, rfl, rfl⟩
  have hdup : (match alookup st.processed v with
      | some last => decide (now - last < PROCESS_COOLDOWN)
      | none => false) = false := by
    cases h : alookup st.processed v with
    | none => rfl
    | some last =>
      simp only [decide_eq_false_iff_not, not_lt]
      exact hcool last h
  simp only [clickup_webhook, hx, pvTruthy, hv, if_true, hh, Bool.false_eq_true, if_false,
    hdup, hfull, le_refl]

/-- C4 witness: with a full queue of 2000 entries and a fresh task id, the
handler returns queue_full and leaves the state untouched. -/
theorem c4_witness :
    clickup_webhook
        ⟨[], [], List.replicate 2000 (Value.vstr "x", ([] : Payload)), []⟩
        [("task_id", PVal.ps (Value.vstr "t"))] 0
      = (⟨[], [], List.replicate 2000 (Value.vstr "x", ([] : Payload)), []⟩, .queueFull) := by
  have h := c4_queue_full
    ⟨[], [], List.replicate 2000 (Value.vstr "x", ([] : Payload)), []⟩
    [("task_id", PVal.ps (Value.vstr "t"))] 0 (Value.vstr "t")
    (by decide) (by decide) (by decide)
    (fun last hl => by simp [alookup] at hl)
    (by simp [TASK_QUEUE_MAX])
  exact h.2.1

/-! Claim C9: event gating of order-record client linking. -/

/-- C9 amended: for a dequeued Order-Record task that passes the worker
cooldown gate and whose fetch succeeded, handle_order_client_linking is
invoked if and only if the value under the FIRST of the keys event,
event_type, hook_event, webhook_event, action present in the payload is
truthy and its lowercased string form contains "create" or "taskcreated";
a creation marker under a later key is masked by an earlier present key. -/
theorem process_order_shape (p : List (Value × ℚ)) (s : List (Value × Sig4))
    (tid : Value) (d : Payload) (now : ℚ) (task : Task)
    (hgate : cooldownPass p tid now = true)
    (hlist : task.listId = some ORDER_RECORD_LIST_ID) :
    process_task_from_queue p s tid d now (some task)
      = ⟨aupdate p tid now, s, true, [], false, isCreateEvent d⟩ := by
  have hne : task.listId ≠ some CUSTOMER_LIST_ID := by
    rw [hlist]
    intro h
    simp [ORDER_RECORD_LIST_ID, CUSTOMER_LIST_ID] at h
  simp only [process_task_from_queue, hgate, if_true, processBody]
  rw [if_neg hne, if_pos hlist]

theorem isCreateEvent_iff (d : Payload) :
    isCreateEvent d = true ↔
      ∃ pv, firstEvent d = some pv ∧ pvTruthy pv = true ∧
        (strContains (pyLower (pvStr pv)) "create" = true ∨
         strContains (pyLower (pvStr pv)) "taskcreated" = true) := by
  simp only [isCreateEvent, eventStr, Bool.or_eq_true]
  cases hf : firstEvent d with
  | none => simp [strContains, containsSub]
  | some pv =>
    cases htr : pvTruthy pv with
    | false => simp [htr, strContains, containsSub]
    | true => simp [htr, Bool.or_eq_true]

/-- C9 amended: for a dequeued Order-Record task that passes the worker
cooldown gate and whose fetch succeeded, handle_order_client_linking is
invoked if and only if the value under the FIRST of the keys event,
event_type, hook_event, webhook_event, action present in the payload is
truthy and its lowercased string form contains "create" or "taskcreated";
a creation marker under a later key is masked by an earlier present key. -/
theorem c9_event_gate_amended (p : List (Value × ℚ)) (s : List (Value × Sig4))
    (tid : Value) (d : Payload) (now : ℚ) (task : Task)
    (hgate : cooldownPass p tid now = true)
    (hlist : task.listId = some ORDER_RECORD_LIST_ID) :
    (process_task_from_queue p s tid d now (some task)).linkingInvoked = true ↔
      ∃ pv, firstEvent d = some pv ∧ pvTruthy pv = true ∧
        (strContains (pyLower (pvStr pv)) "create" = true ∨
         strContains (pyLower (pvStr pv)) "taskcreated" = true) := by
  rw [process_order_shape p s tid d now task hgate hlist]
  exact isCreateEvent_iff d

/-- C9 counterexample: the payload carries action: taskCreated, a value under
one of the five keys whose lowercased form contains "create", yet linking is
not invoked because the earlier key event: taskUpdated is found first; the
claim as stated (any of the keys) predicts an invocation. -/
theorem c9_counterexample :
    (process_task_from_queue [] [] (Value.vstr "T")
        [("event", PVal.ps (Value.vstr "taskUpdated")),
         ("action", PVal.ps (Value.vstr "taskCreated"))] 0
        (some ⟨Value.vstr "T", some ORDER_RECORD_LIST_ID, []⟩)).linkingInvoked = false ∧
    "action" ∈ EVENT_KEYS ∧
    pHasKey [("event", PVal.ps (Value.vstr "taskUpdated")),
             ("action", PVal.ps (Value.vstr "taskCreated"))] "action" = true ∧
    pvTruthy (pget [("event", PVal.ps (Value.vstr "taskUpdated")),
                    ("action", PVal.ps (Value.vstr "taskCreated"))] "action") = true ∧
    strContains (pyLower (pvStr (pget [("event", PVal.ps (Value.vstr "taskUpdated")),
                    ("action", PVal.ps (Value.vstr "taskCreated"))] "action"))) "create"
      = true := by
  refine ⟨?_, by decide, by decide, by decide, by decide⟩
  decide

/-- C9 witness: a payload whose first present event key carries taskCreated
does trigger the linking. -/
theorem c9_witness :
    (process_task_from_queue [] [] (Value.vstr "T")
        [("event", PVal.ps (Value.vstr "taskCreated"))] 0
        (some ⟨Value.vstr "T", some ORDER_RECORD_LIST_ID, []⟩)).linkingInvoked = true :=
  (c9_event_gate_amended [] [] (Value.vstr "T") [("event", PVal.ps (Value.vstr "taskCreated"))]
      0 ⟨Value.vstr "T", some ORDER_RECORD_LIST_ID, []⟩ rfl rfl).mpr
    ⟨PVal.ps (Value.vstr "taskCreated"), by decide, by decide, Or.inl (by decide)⟩

/-! Claim C10: the stored date signature after a Customer-list run. -/

/-- Folding the overwrite step over fields none of which match keeps the
accumulator. -/
theorem foldl_keep_of_no_match (nm : String) :
    ∀ (fields : List Field) (acc : Option Field),
      (∀ g ∈ fields, g.name ≠ nm) →
      fields.foldl (fun a f => if f.name = nm then some f else a) acc = acc := by
  intro fields
  induction fields with
  | nil => intro acc _; rfl
  | cons f t ih =>
    intro acc h
    have hf : f.name ≠ nm := h f (List.mem_cons_self f t)
    simp only [List.foldl_cons, if_neg hf]
    exact ih acc (fun g hg => h g (List.mem_cons_of_mem f hg))

/-- When a name occurs at most once among the fields, the last-wins dict
lookup agrees with the first-match loop lookup. -/
theorem fieldMapLookup_eq_find_of_nodup (fields : List Field) (nm : String)
    (h : (fields.filter (fun f => f.name = nm)).length ≤ 1) :
    fieldMapLookup fields nm = fields.find? (fun f => f.name = nm) := by
  induction fields with
  | nil => rfl
  | cons f t ih =>
    by_cases hf : f.name = nm
    · have hfc : (List.filter (fun g => decide (g.name = nm)) (f :: t))
          = f :: List.filter (fun g => decide (g.name = nm)) t :=
        List.filter_cons_of_pos (by simp [hf])
      have hlen : (List.filter (fun g => decide (g.name = nm)) t).length = 0 := by
        have h1 := h
        rw [hfc] at h1
        simpa using h1
      have hnone : ∀ g ∈ t, g.name ≠ nm := by
        intro g hg hgn
        have : g ∈ List.filter (fun g => decide (g.name = nm)) t :=
          List.mem_filter.mpr ⟨hg, by simp [hgn]⟩
        rw [List.length_eq_zero] at hlen
        rw [hlen] at this
        exact absurd this (List.not_mem_nil g)
      unfold fieldMapLookup
      simp only [List.foldl_cons, if_pos hf]
      rw [foldl_keep_of_no_match nm t (some f) hnone]
      rw [List.find?_cons_of_pos _ (by simp [hf])]
    · have hfc : (List.filter (fun g => decide (g.name = nm)) (f :: t))
          = List.filter (fun g => decide (g.name = nm)) t :=
        List.filter_cons_of_neg (by simp [hf])
      have h1 := h
      rw [hfc] at h1
      unfold fieldMapLookup at ih ⊢
      simp only [List.foldl_cons, if_neg hf]
      rw [List.find?_cons_of_neg _ (by simp [hf])]
      exact ih h1

/-- Under the no-duplicate hypothesis the dict-style and the loop-style field
value reads agree. -/
theorem fmValue_eq_get_field_value (fields : List Field) (nm : String)
    (h : (fields.filter (fun f => f.name = nm)).length ≤ 1) :
    fmValue fields nm = get_field_value fields nm := by
  unfold fmValue get_field_value
  rw [fieldMapLookup_eq_find_of_nodup fields nm h]

/-- C10 amended: after the worker finishes a Customer-list task that passed
the cooldown gate, whose fetch succeeded, whose fetched JSON id equals the
dequeued (non-empty string) task id, and whose four date field names each
occur at most once among its custom fields, last_date_signature[task_id]
equals the signature read from that fetch, whichever branch ran. -/
theorem c10_signature_amended (p : List (Value × ℚ)) (s : List (Value × Sig4))
    (tidS : String) (d : Payload) (now : ℚ) (task : Task)
    (hgate : cooldownPass p (.vstr tidS) now = true)
    (hid : task.id = .vstr tidS) (hS : tidS ≠ "")
    (hlist : task.listId = some CUSTOMER_LIST_ID)
    (hnodup : ∀ nm ∈ ["📅 T1 Date", "📅 T2 Date", "📅 T3 Date", "📅 T4 Date"],
      (task.custom_fields.filter (fun f => f.name = nm)).length ≤ 1) :
    alookup (process_task_from_queue p s (.vstr tidS) d now (some task)).lastSig (.vstr tidS)
      = some (sigOfFields task.custom_fields) := by
  have h1 := fmValue_eq_get_field_value task.custom_fields "📅 T1 Date"
    (hnodup _ (by simp))
  have h2 := fmValue_eq_get_field_value task.custom_fields "📅 T2 Date"
    (hnodup _ (by simp))
  have h3 := fmValue_eq_get_field_value task.custom_fields "📅 T3 Date"
    (hnodup _ (by simp))
  have h4 := fmValue_eq_get_field_value task.custom_fields "📅 T4 Date"
    (hnodup _ (by simp))
  have htr : truthy task.id = true := by
    rw [hid]
    simp [truthy, hS]
  simp only [process_task_from_queue, hgate, if_true, processBody, hlist, if_pos]
  by_cases hbr : (newlyAssigned (alookup s (.vstr tidS)) (sigOfFields task.custom_fields)
      && pairExists (sigOfFields task.custom_fields)) = true
  · rw [if_pos hbr]
    have hcalc : (calculate_all_intervals task).2
        = some (task.id, sigOfFields task.custom_fields) := by
      simp only [calculate_all_intervals, htr, if_true]
      rw [sigOfFields, h1, h2, h3, h4]
    simp only [hcalc, hid]
    exact alookup_aupdate_self s (.vstr tidS) (sigOfFields task.custom_fields)
  · rw [if_neg hbr]
    exact alookup_aupdate_self s (.vstr tidS) (sigOfFields task.custom_fields)

/-- C10 counterexample: with two fields both named T1 Date (the first set,
the second null) plus a set T2 Date, the worker decides to compute (reading
the FIRST T1 occurrence) but calculate_all_intervals stores the signature
built from the LAST occurrence: the stored signature has slot 1 = None while
the signature read from the fetch has slot 1 = "1000". -/
theorem c10_counterexample :
    alookup (process_task_from_queue [] [] (Value.vstr "T") [] 0
        (some ⟨Value.vstr "T", some CUSTOMER_LIST_ID,
          [⟨"📅 T1 Date", some "a", Value.vint 1000⟩,
           ⟨"📅 T1 Date", some "b", Value.vnull⟩,
           ⟨"📅 T2 Date", some "c", Value.vint 2000⟩]⟩)).lastSig (Value.vstr "T")
      = some ⟨none, some "2000", none, none⟩ ∧
    sigOfFields
        [⟨"📅 T1 Date", some "a", Value.vint 1000⟩,
         ⟨"📅 T1 Date", some "b", Value.vnull⟩,
         ⟨"📅 T2 Date", some "c", Value.vint 2000⟩]
      = ⟨some "1000", some "2000", none, none⟩ ∧
    (⟨none, some "2000", none, none⟩ : Sig4) ≠ ⟨some "1000", some "2000", none, none⟩ := by
  refine ⟨?_, by decide, by decide⟩
  decide

/-- C10 witness: with unique field names both reads agree and the stored
signature is the fetched one. -/
theorem c10_witness :
    alookup (process_task_from_queue [] [] (Value.vstr "T") [] 0
        (some ⟨Value.vstr "T", some CUSTOMER_LIST_ID,
          [⟨"📅 T1 Date", some "a", Value.vint 1⟩,
           ⟨"📅 T2 Date", some "b", Value.vint 2⟩]⟩)).lastSig (Value.vstr "T")
      = some ⟨some "1", some "2", none, none⟩ := by
  have h := c10_signature_amended [] [] "T" [] 0
    ⟨Value.vstr "T", some CUSTOMER_LIST_ID,
      [⟨"📅 T1 Date", some "a", Value.vint 1⟩,
       ⟨"📅 T2 Date", some "b", Value.vint 2⟩]⟩
    (by decide) rfl (by decide) rfl (by decide)
  rw [h]
  decide

/-! Claim C3: order record client linking by exact name match. -/

/-- C3 amended: when the order record has a truthy client name of string
shape and a truthy client relationship field id, the first non-archived
customer task whose name matches after stripping and lowercasing both sides
is linked with an add/rem payload UNLESS it is already the first linked
value of the client field (then no write is issued); and when no customer
task matches, no write is issued. -/
theorem c3_linking_amended (orderFields : List Field) (customers : List CTask)
    (cname fid : String) (fldN fldC : Field)
    (hn : lastFieldNamed orderFields "👤 Client Name" = some fldN)
    (hnv : fldN.value = .vstr cname) (hcn : cname ≠ "")
    (hc : lastFieldNamed orderFields "👤 Client" = some fldC)
    (hcid : fldC.id = some fid) (hfid : fid ≠ "") :
    (∀ m, customers.find? (clientNameMatches cname) = some m →
      (alreadyLinkedIn orderFields (some fid) m.id = false →
        handle_order_client_linking orderFields customers = some ⟨fid, [m.id], []⟩) ∧
      (alreadyLinkedIn orderFields (some fid) m.id = true →
        handle_order_client_linking orderFields customers = none)) ∧
    (customers.find? (clientNameMatches cname) = none →
      handle_order_client_linking orderFields customers = none) := by
  have hTr : truthy (Value.vstr cname) = true := by simp [truthy, hcn]
  have hOt : optTruthy (some fid) = true := by simp [optTruthy, hfid]
  constructor
  · intro m hm
    constructor
    · intro hal
      simp only [handle_order_client_linking, hn, hnv, hc, hcid, hTr, hOt, if_true, hm, hal,
        Bool.false_eq_true, if_false]
    · intro hal
      simp only [handle_order_client_linking, hn, hnv, hc, hcid, hTr, hOt, if_true, hm, hal]
  · intro hm
    simp only [handle_order_client_linking, hn, hnv, hc, hcid, hTr, hOt, if_true, hm]

/-- C3 counterexample: the customer task C1 matches the client name Acme
exactly (after strip and lowercase), but because the client field already
holds C1 as its first value the handler skips the write; the claim as stated
says the matching task is linked via an add/rem payload. -/
theorem c3_counterexample :
    List.find? (clientNameMatches "Acme") [(⟨some "C1", " acme "⟩ : CTask)]
      = some ⟨some "C1", " acme "⟩ ∧
    handle_order_client_linking
        [⟨"👤 Client Name", some "N", Value.vstr "Acme"⟩,
         ⟨"👤 Client", some "FC", Value.vrel [RelItem.rid "C1"]⟩]
        [⟨some "C1", " acme "⟩]
      = none := by
  constructor
  · decide
  · decide

/-- C3 witness: with an empty client field the matching customer task is
linked through the add/rem payload. -/
theorem c3_witness :
    handle_order_client_linking
        [⟨"👤 Client Name", some "N", Value.vstr "Acme"⟩,
         ⟨"👤 Client", some "FC", Value.vrel []⟩]
        [⟨some "C1", " acme "⟩]
      = some ⟨"FC", [some "C1"], []⟩ :=
  ((c3_linking_amended
      [⟨"👤 Client Name", some "N", Value.vstr "Acme"⟩,
       ⟨"👤 Client", some "FC", Value.vrel []⟩]
      [⟨some "C1", " acme "⟩] "Acme" "FC"
      ⟨"👤 Client Name", some "N", Value.vstr "Acme"⟩
      ⟨"👤 Client", some "FC", Value.vrel []⟩
      (by decide) rfl (by decide) (by decide) rfl (by decide)).1
    ⟨some "C1", " acme "⟩ (by decide)).1 (by decide)

/-! Claim C1: interval computation and write-back. -/

/-- The sign of the millisecond difference carries over to the difference in
seconds. -/
theorem diffQ_nonneg_iff (x y : Int) :
    (0 ≤ ((y - x : Int) : ℚ) / 1000) ↔ x ≤ y := by
  rw [le_div_iff₀ (by norm_num : (0:ℚ) < 1000), zero_mul]
  exact_mod_cast sub_nonneg

/-- For a well-formed date value the guarded parse in
calculate_all_intervals yields exactly the stored milliseconds (or none). -/
theorem dval_of_dateOk (v : Value) (h : dateOk v) :
    (if truthy v then parse_date v else none)
      = (match v with | .vint n => some n | _ => none) := by
  rcases h with h | ⟨n, hv, hn0, hl, hu⟩
  · subst h
    rfl
  · subst hv
    have ht : truthy (Value.vint n) = true := by simp [truthy, hn0]
    rw [if_pos ht]
    simp [parse_date, pyInt, hl, hu]

/-- The interval string the source computes for one pair of well-formed date
values equals the one the claim predicts. -/
theorem intervalText_spec (a b : Value) (ha : dateOk a) (hb : dateOk b) :
    intervalText (if truthy a then parse_date a else none)
        (if truthy b then parse_date b else none)
      = specInterval a b := by
  rw [dval_of_dateOk a ha, dval_of_dateOk b hb]
  rcases ha with h | ⟨n, hv, hrest⟩ <;> rcases hb with h2 | ⟨m, hv2, hrest2⟩ <;> subst_vars
  · rfl
  · rfl
  · rfl
  · simp only [intervalText, specInterval]
    rcases le_or_lt n m with hle | hlt
    · rw [if_pos ((diffQ_nonneg_iff n m).mpr hle), if_pos hle]
      rfl
    · rw [if_neg (fun hc => absurd ((diffQ_nonneg_iff n m).mp hc) (not_le.mpr hlt)),
        if_neg (not_le.mpr hlt)]

/-- C1: for a task with a truthy id whose three interval fields are present
with truthy field ids and whose four date values are each either unset or a
truthy in-range millisecond timestamp, calculate_all_intervals writes each
interval field with exactly the string the claim specifies: the formatted
days/hours/minutes of the non-negative difference in seconds when both dates
of the pair are present, and the empty string when a date is missing or the
difference is negative. -/
theorem c1_interval_writes (task : Task) (f12 f23 f34 : String)
    (hid : truthy task.id = true)
    (h12 : fmId task.custom_fields "Interval 1-2" = some f12) (h12n : f12 ≠ "")
    (h23 : fmId task.custom_fields "Interval 2-3" = some f23) (h23n : f23 ≠ "")
    (h34 : fmId task.custom_fields "Interval 3-4" = some f34) (h34n : f34 ≠ "")
    (ht1 : dateOk (fmValue task.custom_fields "📅 T1 Date"))
    (ht2 : dateOk (fmValue task.custom_fields "📅 T2 Date"))
    (ht3 : dateOk (fmValue task.custom_fields "📅 T3 Date"))
    (ht4 : dateOk (fmValue task.custom_fields "📅 T4 Date")) :
    (calculate_all_intervals task).1 =
      [(f12, specInterval (fmValue task.custom_fields "📅 T1 Date")
          (fmValue task.custom_fields "📅 T2 Date")),
       (f23, specInterval (fmValue task.custom_fields "📅 T2 Date")
          (fmValue task.custom_fields "📅 T3 Date")),
       (f34, specInterval (fmValue task.custom_fields "📅 T3 Date")
          (fmValue task.custom_fields "📅 T4 Date"))] := by
  simp only [calculate_all_intervals, hid, if_true, h12, h23, h34, writeFor,
    intervalText_spec _ _ ht1 ht2, intervalText_spec _ _ ht2 ht3,
    intervalText_spec _ _ ht3 ht4]
  simp [h12n, h23n, h34n]

/-- C1 witness: T1 and T2 set 90061 seconds apart produce the write
1d 1h 1m into Interval 1-2, and the pairs with missing dates produce the
empty string. -/
theorem c1_witness :
    (calculate_all_intervals ⟨Value.vstr "T", some CUSTOMER_LIST_ID,
        [⟨"📅 T1 Date", some "a", Value.vint 1000⟩,
         ⟨"📅 T2 Date", some "b", Value.vint 90062000⟩,
         ⟨"📅 T3 Date", some "c", Value.vnull⟩,
         ⟨"📅 T4 Date", some "d", Value.vnull⟩,
         ⟨"Interval 1-2", some "F12", Value.vstr ""⟩,
         ⟨"Interval 2-3", some "F23", Value.vstr ""⟩,
         ⟨"Interval 3-4", some "F34", Value.vstr ""⟩]⟩).1
      = [("F12", "1d 1h 1m"), ("F23", ""), ("F34", "")] := by
  have h := c1_interval_writes ⟨Value.vstr "T", some CUSTOMER_LIST_ID,
      [⟨"📅 T1 Date", some "a", Value.vint 1000⟩,
       ⟨"📅 T2 Date", some "b", Value.vint 90062000⟩,
       ⟨"📅 T3 Date", some "c", Value.vnull⟩,
       ⟨"📅 T4 Date", some "d", Value.vnull⟩,
       ⟨"Interval 1-2", some "F12", Value.vstr ""⟩,
       ⟨"Interval 2-3", some "F23", Value.vstr ""⟩,
       ⟨"Interval 3-4", some "F34", Value.vstr ""⟩]⟩
    "F12" "F23" "F34" (by decide) (by decide) (by decide) (by decide) (by decide)
    (by decide) (by decide)
    (Or.inr ⟨1000, by decide, by decide, by decide, by decide⟩)
    (Or.inr ⟨90062000, by decide, by decide, by decide, by decide⟩)
    (Or.inl (by decide)) (Or.inl (by decide))
  rw [h]
  rw [show fmValue
      [⟨"📅 T1 Date", some "a", Value.vint 1000⟩,
       ⟨"📅 T2 Date", some "b", Value.vint 90062000⟩,
       ⟨"📅 T3 Date", some "c", Value.vnull⟩,
       ⟨"📅 T4 Date", some "d", Value.vnull⟩,
       ⟨"Interval 1-2", some "F12", Value.vstr ""⟩,
       ⟨"Interval 2-3", some "F23", Value.vstr ""⟩,
       ⟨"Interval 3-4", some "F34", Value.vstr ""⟩] "📅 T1 Date" = Value.vint 1000
    from by decide]
  rw [show fmValue
      [⟨"📅 T1 Date", some "a", Value.vint 1000⟩,
       ⟨"📅 T2 Date", some "b", Value.vint 90062000⟩,
       ⟨"📅 T3 Date", some "c", Value.vnull⟩,
       ⟨"📅 T4 Date", some "d", Value.vnull⟩,
       ⟨"Interval 1-2", some "F12", Value.vstr ""⟩,
       ⟨"Interval 2-3", some "F23", Value.vstr ""⟩,
       ⟨"Interval 3-4", some "F34", Value.vstr ""⟩] "📅 T2 Date" = Value.vint 90062000
    from by decide]
  rw [show fmValue
      [⟨"📅 T1 Date", some "a", Value.vint 1000⟩,
       ⟨"📅 T2 Date", some "b", Value.vint 90062000⟩,
       ⟨"📅 T3 Date", some "c", Value.vnull⟩,
       ⟨"📅 T4 Date", some "d", Value.vnull⟩,
       ⟨"Interval 1-2", some "F12", Value.vstr ""⟩,
       ⟨"Interval 2-3", some "F23", Value.vstr ""⟩,
       ⟨"Interval 3-4", some "F34", Value.vstr ""⟩] "📅 T3 Date" = Value.vnull
    from by decide]
  rw [show fmValue
      [⟨"📅 T1 Date", some "a", Value.vint 1000⟩,
       ⟨"📅 T2 Date", some "b", Value.vint 90062000⟩,
       ⟨"📅 T3 Date", some "c", Value.vnull⟩,
       ⟨"📅 T4 Date", some "d", Value.vnull⟩,
       ⟨"Interval 1-2", some "F12", Value.vstr ""⟩,
       ⟨"Interval 2-3", some "F23", Value.vstr ""⟩,
       ⟨"Interval 3-4", some "F34", Value.vstr ""⟩] "📅 T4 Date" = Value.vnull
    from by decide]
  norm_num [specInterval, specIntervalString, pyFloorDiv, pyFMod]
  rfl

/-! Claim C5: sliding-window rate limiting. -/

/-- The deque after the popleft loop of ensure_rate_limit is the dropWhile
of the old deque. -/
theorem ensure_fst (dq : List ℚ) (cur : ℚ) :
    (ensure_rate_limit dq cur).1
      = dq.dropWhile (fun ts => decide (ts < cur - API_WINDOW_SECONDS)) := by
  simp only [ensure_rate_limit]
  split_ifs <;> rfl

/-- Every element kept by takeWhile satisfies the predicate. -/
theorem mem_takeWhile_pred {α : Type} (p : α → Bool) :
    ∀ (l : List α) (a : α), a ∈ l.takeWhile p → p a = true := by
  intro l
  induction l with
  | nil =>
    intro a h
    simp [List.takeWhile] at h
  | cons c t ih =>
    intro a h
    by_cases hc : p c = true
    · rw [List.takeWhile_cons, if_pos hc] at h
      rcases List.mem_cons.mp h with h1 | h1
      · subst h1
        exact hc
      · exact ih a h1
    · rw [List.takeWhile_cons, if_neg hc] at h
      exact absurd h (List.not_mem_nil a)

/-- The head surviving a dropWhile does not satisfy the dropped predicate. -/
theorem dropWhile_head_not {α : Type} (p : α → Bool) :
    ∀ (l : List α) (a : α), (l.dropWhile p).head? = some a → p a = false := by
  intro l
  induction l with
  | nil =>
    intro a h
    simp [List.dropWhile] at h
  | cons c t ih =>
    intro a h
    rw [List.dropWhile_cons] at h
    by_cases hc : p c = true
    · rw [if_pos hc] at h
      exact ih a h
    · rw [if_neg hc] at h
      simp only [List.head?_cons, Option.some.injEq] at h
      subst h
      exact Bool.not_eq_true _ |>.mp hc

/-- C5: the rate limiter drops exactly the leading timestamps older than the
60-second window; with at least 100 survivors it sleeps until the oldest
leaves the window plus 0.1 s, with at least 90 it sleeps 1 s, otherwise it
does not sleep; and both request wrappers run it before the request and
append the completion timestamp afterwards. -/
theorem c5_rate_limit (dq : List ℚ) (cur fin : ℚ) :
    API_RATE_LIMIT = 100 ∧ API_WINDOW_SECONDS = 60 ∧ API_THROTTLE_SAFE = 90 ∧
    (∃ dropped, dq = dropped ++ (ensure_rate_limit dq cur).1 ∧
      ∀ ts ∈ dropped, ts < cur - API_WINDOW_SECONDS) ∧
    (∀ h0, (ensure_rate_limit dq cur).1.head? = some h0 →
      ¬ h0 < cur - API_WINDOW_SECONDS) ∧
    (API_RATE_LIMIT ≤ (ensure_rate_limit dq cur).1.length →
      ∃ h0, (ensure_rate_limit dq cur).1.head? = some h0 ∧
        (ensure_rate_limit dq cur).2 = API_WINDOW_SECONDS - (cur - h0) + 1 / 10) ∧
    ((ensure_rate_limit dq cur).1.length < API_RATE_LIMIT →
      API_THROTTLE_SAFE ≤ (ensure_rate_limit dq cur).1.length →
      (ensure_rate_limit dq cur).2 = 1) ∧
    ((ensure_rate_limit dq cur).1.length < API_THROTTLE_SAFE →
      (ensure_rate_limit dq cur).2 = 0) ∧
    clickup_get dq cur fin true
      = ((ensure_rate_limit dq cur).1 ++ [fin], (ensure_rate_limit dq cur).2) ∧
    clickup_post dq cur fin true
      = ((ensure_rate_limit dq cur).1 ++ [fin], (ensure_rate_limit dq cur).2) := by
  refine ⟨rfl, rfl, rfl, ?_, ?_, ?_, ?_, ?_, rfl, rfl⟩
  · refine ⟨dq.takeWhile (fun ts => decide (ts < cur - API_WINDOW_SECONDS)), ?_, ?_⟩
    · rw [ensure_fst]
      exact (List.takeWhile_append_dropWhile _ _).symm
    · intro ts hts
      exact of_decide_eq_true (mem_takeWhile_pred _ dq ts hts)
  · intro h0 hh
    rw [ensure_fst] at hh
    exact of_decide_eq_false (dropWhile_head_not _ dq h0 hh)
  · intro hlen
    rw [ensure_fst] at hlen
    cases hL : dq.dropWhile (fun ts => decide (ts < cur - API_WINDOW_SECONDS)) with
    | nil =>
      rw [hL] at hlen
      simp [API_RATE_LIMIT] at hlen
    | cons x r =>
      refine ⟨x, by rw [ensure_fst, hL]; rfl, ?_⟩
      simp only [ensure_rate_limit, hL]
      rw [if_pos (by rw [hL] at hlen; exact hlen)]
      rfl
  · intro hlt hge
    rw [ensure_fst] at hlt hge
    simp only [ensure_rate_limit]
    rw [if_neg (by omega), if_pos hge]
  · intro hlt
    rw [ensure_fst] at hlt
    simp only [ensure_rate_limit]
    rw [if_neg (by simp only [API_RATE_LIMIT, API_THROTTLE_SAFE] at hlt ⊢; omega),
      if_neg (by omega)]

/-- C5 witness: with one in-window timestamp the limiter drops nothing,
does not sleep, and clickup_get appends the completion timestamp. -/
theorem c5_witness :
    (ensure_rate_limit [(100 : ℚ)] 100).2 = 0 ∧
    clickup_get [(100 : ℚ)] 100 101 true = ([100, 101], 0) := by
  have h := c5_rate_limit [(100 : ℚ)] 100 101
  have hfst : (ensure_rate_limit [(100 : ℚ)] 100).1 = [100] := by
    rw [ensure_fst]
    simp only [List.dropWhile]
    norm_num [API_WINDOW_SECONDS]
  have hsnd : (ensure_rate_limit [(100 : ℚ)] 100).2 = 0 := by
    apply h.2.2.2.2.2.2.2.1
    rw [hfst]
    norm_num [API_THROTTLE_SAFE]
  refine ⟨hsnd, ?_⟩
  rw [h.2.2.2.2.2.2.2.2.1, hfst, hsnd]
  rfl

/-! Claim C2: webhook de-duplication. -/

/-- The separation property between two processing records: same task ids
are at least PROCESS_COOLDOWN seconds apart. -/
def sepRec (a b : Value × ℚ) : Prop :=
  a.1 = b.1 → a.2 + PROCESS_COOLDOWN ≤ b.2

/-- The worker gate determines whether the body ran and how processed_tasks
changed: on a pass the dequeue time is recorded, on a skip nothing changes. -/
theorem process_ran (p : List (Value × ℚ)) (s : List (Value × Sig4)) (tid : Value)
    (d : Payload) (now : ℚ) (fetch : Option Task) :
    (process_task_from_queue p s tid d now fetch).ran = cooldownPass p tid now ∧
    (process_task_from_queue p s tid d now fetch).processed
      = (if cooldownPass p tid now = true then aupdate p tid now else p) := by
  by_cases h : cooldownPass p tid now = true
  · simp [process_task_from_queue, h]
  · rw [Bool.not_eq_true] at h
    simp [process_task_from_queue, h]

/-- Every path through the webhook handler either leaves the state alone or
records the arrival time for one task id that was outside its cooldown
window. -/
theorem hook_cases (st : ServerState) (d : Payload) (now : ℚ) :
    (clickup_webhook st d now).1 = st ∨
    ∃ w : Value,
      (∀ last, alookup st.processed w = some last → PROCESS_COOLDOWN ≤ now - last) ∧
      (clickup_webhook st d now).1.processed = aupdate st.processed w now := by
  cases hx : extractTid d with
  | none =>
    left
    simp [clickup_webhook, hx]
  | some tid =>
    by_cases htr : pvTruthy tid = true
    · cases tid with
      | pobj entries =>
        left
        simp [clickup_webhook, hx, htr]
      | ps v =>
        by_cases hu : isUnhashable v = true
        · left
          simp [clickup_webhook, hx, htr, hu]
        · rw [Bool.not_eq_true] at hu
          cases hal : alookup st.processed v with
          | some last =>
            by_cases hlt : now - last < PROCESS_COOLDOWN
            · left
              simp [clickup_webhook, hx, htr, hu, hal, hlt]
            · by_cases hq : TASK_QUEUE_MAX ≤ st.queued.length
              · left
                simp [clickup_webhook, hx, htr, hu, hal, hlt, hq]
              · right
                refine ⟨v, ?_, ?_⟩
                · intro l hl
                  rw [hal] at hl
                  cases hl
                  exact not_lt.mp hlt
                · simp [clickup_webhook, hx, htr, hu, hal, hlt, hq]
          | none =>
            by_cases hq : TASK_QUEUE_MAX ≤ st.queued.length
            · left
              simp [clickup_webhook, hx, htr, hu, hal, hq]
            · right
              refine ⟨v, ?_, ?_⟩
              · intro l hl
                rw [hal] at hl
                cases hl
              · simp [clickup_webhook, hx, htr, hu, hal, hq]
    · rw [Bool.not_eq_true] at htr
      left
      simp [clickup_webhook, hx, htr]

/-- A step emits at most one processing record. -/
theorem step_recs_shape (st : ServerState) (e : Ev) :
    (stepEv st e).2 = [] ∨ ∃ a, (stepEv st e).2 = [a] := by
  cases e with
  | hook d t => left; rfl
  | work t fetch =>
    cases hq : st.queued with
    | nil =>
      left
      simp [stepEv, hq]
    | cons hd rest =>
      obtain ⟨tid, dd⟩ := hd
      by_cases hr : (process_task_from_queue st.processed st.lastSig tid dd t fetch).ran = true
      · right
        exact ⟨(tid, t), by simp [stepEv, hq, hr]⟩
      · rw [Bool.not_eq_true] at hr
        left
        simp [stepEv, hq, hr]

/-- Every record emitted by a step is recorded in the new processed map at
its own time, and is at least PROCESS_COOLDOWN later than any time the old
map held for its task id. -/
theorem step_emit (st : ServerState) (e : Ev) :
    ∀ r ∈ (stepEv st e).2,
      alookup (stepEv st e).1.processed r.1 = some r.2 ∧
      ∀ q, alookup st.processed r.1 = some q → q + PROCESS_COOLDOWN ≤ r.2 := by
  cases e with
  | hook d t =>
    intro r hr
    simp [stepEv] at hr
  | work t fetch =>
    cases hq : st.queued with
    | nil =>
      intro r hr
      simp [stepEv, hq] at hr
    | cons hd rest =>
      obtain ⟨tid, dd⟩ := hd
      intro r hr
      have hP := process_ran st.processed st.lastSig tid dd t fetch
      by_cases hg : cooldownPass st.processed tid t = true
      · have hran : (process_task_from_queue st.processed st.lastSig tid dd t fetch).ran
            = true := by rw [hP.1, hg]
        simp only [stepEv, hq, hran, if_true, List.mem_singleton] at hr
        subst hr
        constructor
        · simp only [stepEv, hq]
          rw [hP.2, if_pos hg]
          exact alookup_aupdate_self st.processed tid t
        · intro q hqq
          unfold cooldownPass at hg
          rw [hqq] at hg
          have h3 := of_decide_eq_true hg
          linarith
      · rw [Bool.not_eq_true] at hg
        have hran : (process_task_from_queue st.processed st.lastSig tid dd t fetch).ran
            = false := by
          rw [hP.1]
          exact hg
        simp [stepEv, hq, hran] at hr

/-- A step never decreases the recorded time of any task id. -/
theorem step_mono (st : ServerState) (e : Ev) (v : Value) (q : ℚ)
    (h : alookup st.processed v = some q) :
    ∃ q1, alookup (stepEv st e).1.processed v = some q1 ∧ q ≤ q1 := by
  cases e with
  | hook d t =>
    rcases hook_cases st d t with hc | ⟨w, hw, hproc⟩
    · refine ⟨q, ?_, le_rfl⟩
      show alookup (clickup_webhook st d t).1.processed v = some q
      rw [hc]
      exact h
    · by_cases hvw : v = w
      · subst hvw
        refine ⟨t, ?_, ?_⟩
        · show alookup (clickup_webhook st d t).1.processed v = some t
          rw [hproc]
          exact alookup_aupdate_self st.processed v t
        · have h1 := hw q h
          have h3 : (0:ℚ) ≤ PROCESS_COOLDOWN := by norm_num [PROCESS_COOLDOWN]
          linarith
      · refine ⟨q, ?_, le_rfl⟩
        show alookup (clickup_webhook st d t).1.processed v = some q
        rw [hproc, alookup_aupdate_ne st.processed w v t hvw]
        exact h
  | work t fetch =>
    cases hq : st.queued with
    | nil =>
      refine ⟨q, ?_, le_rfl⟩
      simp only [stepEv, hq]
      exact h
    | cons hd rest =>
      obtain ⟨tid, dd⟩ := hd
      have hP := (process_ran st.processed st.lastSig tid dd t fetch).2
      by_cases hg : cooldownPass st.processed tid t = true
      · rw [if_pos hg] at hP
        by_cases hvt : v = tid
        · subst hvt
          refine ⟨t, ?_, ?_⟩
          · simp only [stepEv, hq]
            rw [hP]
            exact alookup_aupdate_self st.processed v t
          · unfold cooldownPass at hg
            rw [h] at hg
            have h3 := of_decide_eq_true hg
            have h0 : (0:ℚ) ≤ PROCESS_COOLDOWN := by norm_num [PROCESS_COOLDOWN]
            linarith
        · refine ⟨q, ?_, le_rfl⟩
          simp only [stepEv, hq]
          rw [hP, alookup_aupdate_ne st.processed tid v t hvt]
          exact h
      · rw [if_neg hg] at hP
        refine ⟨q, ?_, le_rfl⟩
        simp only [stepEv, hq]
        rw [hP]
        exact h

/-- Unfolding one step of runTrace. -/
theorem runTrace_cons (st : ServerState) (e : Ev) (es : List Ev) :
    runTrace st (e :: es)
      = ((runTrace (stepEv st e).1 es).1,
         (stepEv st e).2 ++ (runTrace (stepEv st e).1 es).2) := by
  simp [runTrace]

/-- Induction core for the trace property: every emitted record is at least
PROCESS_COOLDOWN later than any time the starting map holds for its id, and
the records are pairwise separated. -/
theorem runTrace_sep (evs : List Ev) : ∀ st : ServerState,
    (∀ r ∈ (runTrace st evs).2, ∀ q, alookup st.processed r.1 = some q →
        q + PROCESS_COOLDOWN ≤ r.2) ∧
    ((runTrace st evs).2).Pairwise sepRec := by
  induction evs with
  | nil =>
    intro st
    constructor
    · intro r hr
      simp [runTrace] at hr
    · simp [runTrace]
  | cons e es ih =>
    intro st
    obtain ⟨ih1, ih2⟩ := ih (stepEv st e).1
    constructor
    · intro r hr q hq
      rw [runTrace_cons] at hr
      rcases List.mem_append.mp hr with h1 | h2
      · exact (step_emit st e r h1).2 q hq
      · obtain ⟨q1, hq1, hle⟩ := step_mono st e r.1 q hq
        have := ih1 r h2 q1 hq1
        linarith
    · rw [runTrace_cons]
      rw [List.pairwise_append]
      refine ⟨?_, ih2, ?_⟩
      · rcases step_recs_shape st e with h0 | ⟨a, ha⟩
        · rw [h0]
          exact List.Pairwise.nil
        · rw [ha]
          exact List.pairwise_singleton sepRec a
      · intro a haa b hb
        intro heq
        have hae := step_emit st e a haa
        have hb1 : alookup (stepEv st e).1.processed b.1 = some a.2 := by
          rw [← heq]
          exact hae.1
        exact ih1 b hb a.2 hb1

/-- C2: the cooldown is 3 seconds; a webhook POST whose task id was recorded
less than 3 seconds ago is answered 200 with body ignored: duplicate and
nothing is enqueued (the state is unchanged); the worker skips a dequeued
task whose recorded time is less than 3 seconds old without touching any
state; and along any serialized run of the system from the empty start
state, two processing records of the same task id are always at least
PROCESS_COOLDOWN seconds apart. -/
theorem c2_dedup :
    PROCESS_COOLDOWN = 3 ∧
    (∀ (st : ServerState) (d : Payload) (now : ℚ) (v : Value) (last : ℚ),
      extractTid d = some (.ps v) → truthy v = true → isUnhashable v = false →
      alookup st.processed v = some last → now - last < PROCESS_COOLDOWN →
      clickup_webhook st d now = (st, .ignoredDup)) ∧
    respStatus .ignoredDup = 200 ∧
    respBody .ignoredDup = some ("ignored", "duplicate") ∧
    (∀ (p : List (Value × ℚ)) (s : List (Value × Sig4)) (tid : Value) (d : Payload)
        (now : ℚ) (fetch : Option Task) (prev : ℚ),
      alookup p tid = some prev → now - prev < PROCESS_COOLDOWN →
      process_task_from_queue p s tid d now fetch = ⟨p, s, false, [], false, false⟩) ∧
    (∀ evs : List Ev, ((runTrace initServerState evs).2).Pairwise sepRec) := by
  refine ⟨rfl, ?_, rfl, rfl, ?_, ?_⟩
  · intro st d now v last hx hv hu hal hlt
    simp [clickup_webhook, hx, pvTruthy, hv, hu, hal, hlt]
  · intro p s tid d now fetch prev hal hlt
    have hg : cooldownPass p tid now = false := by
      unfold cooldownPass
      rw [hal]
      exact decide_eq_false (not_le.mpr hlt)
    simp [process_task_from_queue, hg]
  · intro evs
    exact (runTrace_sep evs initServerState).2

/-- C2 witness: a second POST for the same task id one second later is
answered ignored duplicate with the state unchanged. -/
theorem c2_witness :
    clickup_webhook ⟨[(Value.vstr "t", 0)], [], [], []⟩
        [("task_id", PVal.ps (Value.vstr "t"))] 1
      = (⟨[(Value.vstr "t", 0)], [], [], []⟩, .ignoredDup) := by
  have h := c2_dedup
  exact h.2.1 ⟨[(Value.vstr "t", 0)], [], [], []⟩ [("task_id", PVal.ps (Value.vstr "t"))] 1
    (Value.vstr "t") 0 (by decide) (by decide) (by decide) (by decide)
    (by norm_num [PROCESS_COOLDOWN])

end CWS
